import Mathlib

/-!
Verification of the offline sync-queue subsystem of the maronn-taskchute
repository (class SyncQueue, together with the REST client module it mirrors
and the shared constant SYNC_RETRY_DELAYS_MS).

The TypeScript source is shallowly embedded as follows:
* JavaScript values that flow through JSON.stringify / JSON.parse are
  modelled by the inductive type Json (the abstract syntax tree that
  JSON.parse produces).  The stored string under the fixed storage key is
  modelled up to parseability: the storage cell holds either nothing, an
  unparseable value, or the Json value the string parses to.
* The mutable class state (this.queue, this.isProcessing, the storage cell,
  navigator.onLine) is a record QueueState; each method becomes a function
  from QueueState to QueueState (returning extra data where the method does).
* Methods that can raise are Except-valued; a try/catch in the source is an
  explicit match on the Except.
* The async control flow of processQueue / processOperation is sequential in
  the JavaScript event loop (each await completes before the next statement
  of the same invocation runs, and nothing else mutates the queue in the
  executions the claims describe), so it is embedded as a pure function that
  additionally returns the ordered trace of dispatch attempts and waits.
  The network call inside executeOperation is abstracted by a Dispatcher
  oracle giving the outcome of each attempt; the URL/verb routing part of
  executeOperation is embedded separately and exactly as executeRoute.
-/

namespace TaskChute

/-- Abstract syntax of JSON values, the image of JSON.parse. Numbers are
restricted to integers, which covers every number the sync queue stores
(Date.now timestamps and retry counters). -/
inductive Json where
  | null
  | bool (b : Bool)
  | num (n : Int)
  | str (s : String)
  | arr (elems : List Json)
  | obj (fields : List (String × Json))

/-- The SyncOperationType union of sync-queue.ts. -/
inductive SyncOperationType where
  | create
  | update
  | delete
deriving DecidableEq, Repr

/-- The SyncEntity union of sync-queue.ts. -/
inductive SyncEntity where
  | task
  | comment
  | workspace
deriving DecidableEq, Repr

/-- The status union of the SyncOperation interface. -/
inductive SyncStatus where
  | pending
  | syncing
  | failed
deriving DecidableEq, Repr

/-- The SyncOperation interface of sync-queue.ts.  The opaque payload is a
Json value (it is only ever serialized), timestamps are Date.now values. -/
structure SyncOperation where
  id : String
  type : SyncOperationType
  entity : SyncEntity
  entityId : String
  workspaceId : String
  payload : Json
  timestamp : Nat
  retryCount : Nat
  status : SyncStatus
  error : Option String

/-- The constant SYNC_RETRY_DELAYS_MS of shared/constants/index.ts. -/
def syncRetryDelaysMs : List Nat := [2000, 4000, 8000, 16000]

/-- String rendering of a SyncOperationType, as JSON.stringify writes it. -/
def typeStr : SyncOperationType → String
  | SyncOperationType.create => "create"
  | SyncOperationType.update => "update"
  | SyncOperationType.delete => "delete"

/-- String rendering of a SyncEntity, as JSON.stringify writes it. -/
def entityStr : SyncEntity → String
  | SyncEntity.task => "task"
  | SyncEntity.comment => "comment"
  | SyncEntity.workspace => "workspace"

/-- String rendering of a SyncStatus, as JSON.stringify writes it. -/
def statusStr : SyncStatus → String
  | SyncStatus.pending => "pending"
  | SyncStatus.syncing => "syncing"
  | SyncStatus.failed => "failed"

/-- Inverse of typeStr. -/
def parseType (s : String) : Option SyncOperationType :=
  if s = "create" then some SyncOperationType.create
  else if s = "update" then some SyncOperationType.update
  else if s = "delete" then some SyncOperationType.delete
  else none

/-- Inverse of entityStr. -/
def parseEntity (s : String) : Option SyncEntity :=
  if s = "task" then some SyncEntity.task
  else if s = "comment" then some SyncEntity.comment
  else if s = "workspace" then some SyncEntity.workspace
  else none

/-- Inverse of statusStr. -/
def parseStatus (s : String) : Option SyncStatus :=
  if s = "pending" then some SyncStatus.pending
  else if s = "syncing" then some SyncStatus.syncing
  else if s = "failed" then some SyncStatus.failed
  else none

/-- First-match lookup in the field list of a JSON object. -/
def lookupField : List (String × Json) → String → Option Json
  | [], _ => none
  | (k, v) :: rest, key => if k = key then some v else lookupField rest key

/-- Read a JSON string out of an optional field. -/
def asStr : Option Json → Option String
  | some (Json.str s) => some s
  | _ => none

/-- Read a non-negative JSON number out of an optional field. -/
def asNat : Option Json → Option Nat
  | some (Json.num n) => if 0 ≤ n then some n.toNat else none
  | _ => none

/-- JSON encoding of one SyncOperation record, field for field as
JSON.stringify lays out the interface (the optional error field is omitted
when absent, as JSON.stringify omits undefined properties). -/
def encodeOp (op : SyncOperation) : Json :=
  Json.obj
    ([("id", Json.str op.id),
      ("type", Json.str (typeStr op.type)),
      ("entity", Json.str (entityStr op.entity)),
      ("entityId", Json.str op.entityId),
      ("workspaceId", Json.str op.workspaceId),
      ("payload", op.payload),
      ("timestamp", Json.num (op.timestamp : Int)),
      ("retryCount", Json.num (op.retryCount : Int)),
      ("status", Json.str (statusStr op.status))] ++
     (match op.error with
      | some e => [("error", Json.str e)]
      | none => []))

/-- Decoding of one SyncOperation record from its JSON value. -/
def decodeOp : Json → Option SyncOperation
  | Json.obj fields => do
      let id ← asStr (lookupField fields "id")
      let tyS ← asStr (lookupField fields "type")
      let ty ← parseType tyS
      let enS ← asStr (lookupField fields "entity")
      let en ← parseEntity enS
      let entityId ← asStr (lookupField fields "entityId")
      let workspaceId ← asStr (lookupField fields "workspaceId")
      let payload ← lookupField fields "payload"
      let timestamp ← asNat (lookupField fields "timestamp")
      let retryCount ← asNat (lookupField fields "retryCount")
      let stS ← asStr (lookupField fields "status")
      let status ← parseStatus stS
      let err := asStr (lookupField fields "error")
      some { id := id, type := ty, entity := en, entityId := entityId,
             workspaceId := workspaceId, payload := payload,
             timestamp := timestamp, retryCount := retryCount,
             status := status, error := err }
  | _ => none

/-- Decoding of a list of records. -/
def decodeOpList : List Json → Option (List SyncOperation)
  | [] => some []
  | j :: rest => do
      let op ← decodeOp j
      let ops ← decodeOpList rest
      some (op :: ops)

/-- Decoding of the whole stored value (a JSON array of records). -/
def decodeOps : Json → Option (List SyncOperation)
  | Json.arr elems => decodeOpList elems
  | _ => none

/-- JSON encoding of the whole queue, as JSON.stringify(this.queue). -/
def encodeOps (queue : List SyncOperation) : Json :=
  Json.arr (queue.map encodeOp)

/-- State of one SyncQueue instance together with its environment: the
in-memory list this.queue, the this.isProcessing flag, the localStorage cell
under STORAGE_KEY (none if no value is stored, some none if a value is
stored that JSON.parse rejects, some (some j) if the stored string parses to
the Json value j), the navigator.onLine flag, whether localStorage.setItem
currently throws (quota errors and the like), and the console.error log. -/
structure QueueState where
  queue : List SyncOperation
  storage : Option (Option Json)
  isProcessing : Bool
  online : Bool
  storeFails : Bool
  log : List String

namespace SyncQueue

/-- Model of localStorage.setItem under STORAGE_KEY: it either throws or
replaces the stored value, which afterwards parses back to the written
Json value. -/
def setItem (fails : Bool) (v : Json) : Except String (Option (Option Json)) :=
  if fails then Except.error "Failed to save sync queue to storage"
  else Except.ok (some (some v))

/-- The private saveToStorage method.  The try/catch of the source is the
match: a throwing setItem is caught, logged via console.error, and the
method returns normally with the storage cell unchanged. -/
def saveToStorage (st : QueueState) : QueueState :=
  match setItem st.storeFails (encodeOps st.queue) with
  | Except.ok cell => { st with storage := cell }
  | Except.error e => { st with log := st.log ++ [e] }

/-- The private loadFromStorage method, run by the constructor: a missing
stored value leaves the initial empty list; an unparseable stored value hits
the catch branch, which logs and resets the list to empty.  (When the value
parses, the source casts it unchecked; the model reads it back through the
decoder, which it only ever meets on values the queue itself has written.) -/
def loadFromStorage (cell : Option (Option Json)) : List SyncOperation :=
  match cell with
  | none => []
  | some none => []
  | some (some j) => (decodeOps j).getD []

/-- The constructor: repopulate the queue from storage; processing is not in
progress and nothing has been logged yet. -/
def init (cell : Option (Option Json)) (online : Bool) (storeFails : Bool) : QueueState :=
  { queue := loadFromStorage cell, storage := cell, isProcessing := false,
    online := online, storeFails := storeFails, log := [] }

/-- The argument of add: a SyncOperation except the fields the method fills
in itself (id, timestamp, retryCount, status). -/
structure SyncOpInput where
  type : SyncOperationType
  entity : SyncEntity
  entityId : String
  workspaceId : String
  payload : Json

/-- The record add constructs from its argument, the generated id, and the
current Date.now value. -/
def mkOperation (inp : SyncOpInput) (id : String) (now : Nat) : SyncOperation :=
  { id := id, type := inp.type, entity := inp.entity, entityId := inp.entityId,
    workspaceId := inp.workspaceId, payload := inp.payload, timestamp := now,
    retryCount := 0, status := SyncStatus.pending, error := none }

/-- The deduplication predicate of add: pending operations for the same
(entity, entityId) pair are dropped before the new record is pushed. -/
def samePendingPair (entity : SyncEntity) (entityId : String) (op : SyncOperation) : Bool :=
  decide (op.entity = entity) && decide (op.entityId = entityId) &&
    decide (op.status = SyncStatus.pending)

/-- The add method.  The generated id and Date.now read are environment
inputs and appear as parameters.  The fire-and-forget processQueue trigger
on an online device is a separate asynchronous task and is modelled by the
standalone drain function below.  add is Except-valued because the claims
speak about exceptions escaping it; every throw-site it contains is wrapped
in a catch, so it in fact always returns normally. -/
def add (inp : SyncOpInput) (id : String) (now : Nat) (st : QueueState) :
    Except String (String × QueueState) :=
  let newOperation := mkOperation inp id now
  let dedup := st.queue.filter (fun op => !(samePendingPair inp.entity inp.entityId op))
  Except.ok (id, saveToStorage { st with queue := dedup ++ [newOperation] })

/-- The remove method. -/
def remove (id : String) (st : QueueState) : Except String QueueState :=
  Except.ok (saveToStorage { st with queue := st.queue.filter (fun op => !(op.id == id)) })

/-- The getAll method (the defensive copy is the identity in a pure model). -/
def getAll (st : QueueState) : List SyncOperation :=
  st.queue

/-- The getPending method. -/
def getPending (st : QueueState) : List SyncOperation :=
  st.queue.filter (fun op => decide (op.status = SyncStatus.pending))

/-- The getFailed method. -/
def getFailed (st : QueueState) : List SyncOperation :=
  st.queue.filter (fun op => decide (op.status = SyncStatus.failed))

/-- The clear method. -/
def clear (st : QueueState) : Except String QueueState :=
  Except.ok (saveToStorage { st with queue := [] })

/-- The clearFailed method. -/
def clearFailed (st : QueueState) : Except String QueueState :=
  Except.ok (saveToStorage
    { st with queue := st.queue.filter (fun op => !(decide (op.status = SyncStatus.failed))) })

end SyncQueue

/-- Outcome oracle for the network call inside executeOperation: given the
id of the record and the retryCount the record carries when the attempt is made,
none means the call succeeds and some msg means it throws an error carrying
message msg. -/
def Dispatcher : Type :=
  String → Nat → Option String

/-- One step of the observable drain trace: a dispatch attempt (an
executeOperation invocation) for a record, carrying the retryCount the
record had at that attempt, or an awaited backoff delay. -/
inductive SyncEvent where
  | attempt (id : String) (retryCount : Nat)
  | waited (ms : Nat)
deriving DecidableEq, Repr

/-- Placeholder record used as the default of List.getD; every access is at
an index the source obtained from a successful findIndex, so it is never
produced in the executions described by the claims. -/
def dfltOp : SyncOperation :=
  { id := "", type := SyncOperationType.create, entity := SyncEntity.task,
    entityId := "", workspaceId := "", payload := Json.null, timestamp := 0,
    retryCount := 0, status := SyncStatus.pending, error := none }

namespace SyncQueue

/-- The private processOperation method, with the trace of its dispatch
attempts and awaited delays.  The recursion of the source terminates because
retryCount strictly grows towards the SYNC_RETRY_DELAYS_MS ceiling; the
model makes that measure explicit as fuel (drainFuel below always
suffices).  Step by step as in the source: find the index of the record by id;
mark it syncing and persist; invoke the dispatcher; on success drop the
record by id and persist; on failure increment retryCount, and either
re-mark pending, persist, await the backoff delay and recursively retry the
record now at that index, or — when retryCount has reached the number of
configured delays — mark the record failed and persist. -/
def processOperation (disp : Dispatcher) :
    Nat → SyncOperation → QueueState → QueueState × List SyncEvent
  | 0, _, st => (st, [])
  | Nat.succ fuel, op, st =>
    match st.queue.findIdx? (fun o => o.id == op.id) with
    | none => (st, [])
    | some index =>
      let st1 := saveToStorage
        { st with queue := st.queue.set index ({ op with status := SyncStatus.syncing }) }
      match disp op.id op.retryCount with
      | none =>
        let st2 := saveToStorage
          { st1 with queue := st1.queue.filter (fun o => !(o.id == op.id)) }
        (st2, [SyncEvent.attempt op.id op.retryCount])
      | some errorMessage =>
        let retryCount := op.retryCount + 1
        if retryCount < syncRetryDelaysMs.length then
          let op2 : SyncOperation :=
            { op with
              status := SyncStatus.pending
              retryCount := retryCount
              error := some errorMessage }
          let st2 := saveToStorage { st1 with queue := st1.queue.set index op2 }
          let (st3, evs) :=
            processOperation disp fuel (st2.queue.getD index dfltOp) st2
          (st3, SyncEvent.attempt op.id op.retryCount ::
                SyncEvent.waited (syncRetryDelaysMs.getD retryCount 0) :: evs)
        else
          let op2 : SyncOperation :=
            { op with
              status := SyncStatus.failed
              retryCount := retryCount
              error := some errorMessage }
          let st2 := saveToStorage { st1 with queue := st1.queue.set index op2 }
          (st2, [SyncEvent.attempt op.id op.retryCount])

/-- Fuel that always suffices for processOperation: the retry chain of one
record makes at most one attempt per configured delay. -/
def drainFuel : Nat :=
  syncRetryDelaysMs.length

/-- The for-loop of processQueue over the pending snapshot, each iteration
awaited to completion before the next starts. -/
def processOps (disp : Dispatcher) :
    List SyncOperation → QueueState → QueueState × List SyncEvent
  | [], st => (st, [])
  | op :: rest, st =>
    let step := processOperation disp drainFuel op st
    let stepRest := processOps disp rest step.1
    (stepRest.1, step.2 ++ stepRest.2)

/-- The processQueue method: return immediately when a drain pass is already
active or the device is offline; otherwise set the re-entrancy flag, take
the pending snapshot, process it in order, and clear the flag (the finally
block). -/
def processQueue (disp : Dispatcher) (st : QueueState) : QueueState × List SyncEvent :=
  if st.isProcessing || !st.online then (st, [])
  else
    let st1 := { st with isProcessing := true }
    let run := processOps disp (getPending st1) st1
    ({ run.1 with isProcessing := false }, run.2)

end SyncQueue

/-- Shape of one outbound transport call: the fetch target, the HTTP verb,
and the request body (kept at the Json level; the source sends
JSON.stringify of it). -/
structure OutboundRequest where
  url : String
  method : String
  body : Option Json

namespace SyncQueue

/-- The URL/verb routing of the private executeOperation method, exactly as
its nested switch reads: tasks and comments are mapped per operation type,
and any other entity reaches the throwing default branch.  (The inner
Unknown-operation-type defaults have no counterpart here, because the Lean
operation type is exactly the three-constructor union and all three are
handled for both mapped entities.)  The network send and response check are
abstracted by the Dispatcher oracle. -/
def executeRoute (op : SyncOperation) : Except String OutboundRequest :=
  match op.entity with
  | SyncEntity.task =>
    match op.type with
    | SyncOperationType.create =>
      Except.ok { url := "/api/workspaces/" ++ op.workspaceId ++ "/tasks",
                  method := "POST", body := some op.payload }
    | SyncOperationType.update =>
      Except.ok { url := "/api/workspaces/" ++ op.workspaceId ++ "/tasks/" ++ op.entityId,
                  method := "PATCH", body := some op.payload }
    | SyncOperationType.delete =>
      Except.ok { url := "/api/workspaces/" ++ op.workspaceId ++ "/tasks/" ++ op.entityId,
                  method := "DELETE", body := none }
  | SyncEntity.comment =>
    match op.type with
    | SyncOperationType.create =>
      Except.ok { url := "/api/tasks/" ++ op.entityId ++ "/comments",
                  method := "POST", body := some op.payload }
    | SyncOperationType.update =>
      Except.ok { url := "/api/comments/" ++ op.entityId,
                  method := "PATCH", body := some op.payload }
    | SyncOperationType.delete =>
      Except.ok { url := "/api/comments/" ++ op.entityId,
                  method := "DELETE", body := none }
  | SyncEntity.workspace =>
    Except.error "Unknown entity type: workspace"

end SyncQueue

/-- The call the REST client module of the repository itself (taskApi, commentApi,
workspaceApi in the api module) makes for a given (entity, operation type)
pair — the remote address and verb each create/update/delete of the aggregate
actually uses, taken from the fetch calls of that module. -/
def apiClientRequest (entity : SyncEntity) (type : SyncOperationType)
    (workspaceId entityId : String) (payload : Json) : OutboundRequest :=
  match entity, type with
  | SyncEntity.task, SyncOperationType.create =>
    { url := "/api/workspaces/" ++ workspaceId ++ "/tasks",
      method := "POST", body := some payload }
  | SyncEntity.task, SyncOperationType.update =>
    { url := "/api/workspaces/" ++ workspaceId ++ "/tasks/" ++ entityId,
      method := "PATCH", body := some payload }
  | SyncEntity.task, SyncOperationType.delete =>
    { url := "/api/workspaces/" ++ workspaceId ++ "/tasks/" ++ entityId,
      method := "DELETE", body := none }
  | SyncEntity.comment, SyncOperationType.create =>
    { url := "/api/tasks/" ++ entityId ++ "/comments",
      method := "POST", body := some payload }
  | SyncEntity.comment, SyncOperationType.update =>
    { url := "/api/comments/" ++ entityId,
      method := "PATCH", body := some payload }
  | SyncEntity.comment, SyncOperationType.delete =>
    { url := "/api/comments/" ++ entityId,
      method := "DELETE", body := none }
  | SyncEntity.workspace, SyncOperationType.create =>
    { url := "/api/workspaces",
      method := "POST", body := some payload }
  | SyncEntity.workspace, SyncOperationType.update =>
    { url := "/api/workspaces/" ++ entityId,
      method := "PATCH", body := some payload }
  | SyncEntity.workspace, SyncOperationType.delete =>
    { url := "/api/workspaces/" ++ entityId,
      method := "DELETE", body := none }

namespace SyncQueue

/-- State reached by add (which never returns an error, all its throw-sites
being caught). -/
def addRun (inp : SyncOpInput) (id : String) (now : Nat) (st : QueueState) : QueueState :=
  match add inp id now st with
  | Except.ok r => r.2
  | Except.error _ => st

/-- State reached by remove. -/
def removeRun (id : String) (st : QueueState) : QueueState :=
  match remove id st with
  | Except.ok r => r
  | Except.error _ => st

/-- State reached by clear. -/
def clearRun (st : QueueState) : QueueState :=
  match clear st with
  | Except.ok r => r
  | Except.error _ => st

/-- State reached by clearFailed. -/
def clearFailedRun (st : QueueState) : QueueState :=
  match clearFailed st with
  | Except.ok r => r
  | Except.error _ => st

end SyncQueue

/-- One call to a mutating Queue Core method, with the environment inputs
(generated id, Date.now) a call to add consumes. -/
inductive QueueCall where
  | addCall (inp : SyncQueue.SyncOpInput) (id : String) (now : Nat)
  | removeCall (id : String)
  | clearCall
  | clearFailedCall

/-- Effect of one mutating call on the queue state. -/
def applyCall : QueueCall → QueueState → QueueState
  | QueueCall.addCall inp id now, st => SyncQueue.addRun inp id now st
  | QueueCall.removeCall id, st => SyncQueue.removeRun id st
  | QueueCall.clearCall, st => SyncQueue.clearRun st
  | QueueCall.clearFailedCall, st => SyncQueue.clearFailedRun st

/-- Effect of a finite sequence of mutating calls, first call first. -/
def runCalls : List QueueCall → QueueState → QueueState
  | [], st => st
  | c :: cs, st => runCalls cs (applyCall c st)

/-- The queue read back from the Durable Store: deserialization of the value
stored under the fixed key, if a parseable value is stored. -/
def storedQueue (st : QueueState) : Option (List SyncOperation) :=
  match st.storage with
  | some (some j) => decodeOps j
  | _ => none

/-- Number of records in a queue for one (entity, entityId) pair, any
status. -/
def pairCount (q : List SyncOperation) (e : SyncEntity) (eid : String) : Nat :=
  q.countP (fun op => decide (op.entity = e) && decide (op.entityId = eid))

/-- Number of records in a queue for one (entity, entityId) pair whose
status is pending. -/
def pendingPairCount (q : List SyncOperation) (e : SyncEntity) (eid : String) : Nat :=
  q.countP (SyncQueue.samePendingPair e eid)

/-- Number of records in a queue for one (entity, entityId) pair whose
status is pending or syncing (the invariant C3 asserts). -/
def psPairCount (q : List SyncOperation) (e : SyncEntity) (eid : String) : Nat :=
  q.countP (fun op => decide (op.entity = e) && decide (op.entityId = eid) &&
    (decide (op.status = SyncStatus.pending) || decide (op.status = SyncStatus.syncing)))

/-- The per-pair uniqueness invariant that actually holds of the queue: at
most one pending record per (entity, entityId) pair. -/
def AtMostOnePending (q : List SyncOperation) : Prop :=
  ∀ e eid, pendingPairCount q e eid ≤ 1

/-- Whether an event is a dispatch attempt for the record with the given
id. -/
def isAttemptOf (id : String) : SyncEvent → Bool
  | SyncEvent.attempt i _ => i == id
  | SyncEvent.waited _ => false

/-- The retryCount carried by an attempt event. -/
def attemptRetry : SyncEvent → Option Nat
  | SyncEvent.attempt _ rc => some rc
  | SyncEvent.waited _ => none

/-- The trace an always-failing record produces: k further attempts starting
at retry count rc, each non-final attempt followed by the backoff wait for
the next retry count. -/
def failTrace (id : String) : Nat → Nat → List SyncEvent
  | _, 0 => []
  | rc, Nat.succ k =>
    SyncEvent.attempt id rc ::
      (if k = 0 then []
       else SyncEvent.waited (syncRetryDelaysMs.getD (rc + 1) 0) :: failTrace id (rc + 1) k)

/-- A locally-applied optimistic version or server-returned version of one
entity, reduced to what the Reconciliation Policy reads: its content and its
modification timestamp. -/
structure VersionedEntity where
  content : Json
  updatedAt : Nat

/-- Modelled from the spec: the Reconciliation Policy (spec section 4.5) is
applied at the UI/state-store boundary, outside the sync queue, and no
function under src implements it — the design document of the repository only
states the rule (conflict resolution is Last Write Wins keyed on updatedAt).
Following the words of the spec: the version whose modification timestamp is
numerically greater wins and replaces the other in the presented state;
ties favor the server version. -/
def reconcile (localVersion serverVersion : VersionedEntity) : VersionedEntity :=
  if serverVersion.updatedAt < localVersion.updatedAt then localVersion else serverVersion


/-! Concrete states used by counterexamples and witnesses. -/

/-- A record of each status for the pair (task, e1), plus a pending record
for a second entity. -/
def opPend : SyncOperation :=
  { id := "p1", type := SyncOperationType.update, entity := SyncEntity.task,
    entityId := "e1", workspaceId := "w1", payload := Json.str "a",
    timestamp := 0, retryCount := 0, status := SyncStatus.pending, error := none }

/-- A failed record for the same pair as opPend. -/
def opFail : SyncOperation :=
  { id := "f1", type := SyncOperationType.update, entity := SyncEntity.task,
    entityId := "e1", workspaceId := "w1", payload := Json.str "old",
    timestamp := 0, retryCount := 4, status := SyncStatus.failed,
    error := some "HTTP 500" }

/-- A syncing record for the same pair as opPend. -/
def opSyncing : SyncOperation :=
  { id := "s1", type := SyncOperationType.update, entity := SyncEntity.task,
    entityId := "e1", workspaceId := "w1", payload := Json.str "mid",
    timestamp := 0, retryCount := 0, status := SyncStatus.syncing, error := none }

/-- A pending record for a different entity. -/
def opOther : SyncOperation :=
  { id := "q1", type := SyncOperationType.create, entity := SyncEntity.comment,
    entityId := "e2", workspaceId := "w1", payload := Json.str "c",
    timestamp := 0, retryCount := 0, status := SyncStatus.pending, error := none }

/-- The add argument used by the concrete scenarios: a delete for the pair
(task, e1). -/
def inpDel : SyncQueue.SyncOpInput :=
  { type := SyncOperationType.delete, entity := SyncEntity.task,
    entityId := "e1", workspaceId := "w1", payload := Json.null }

/-- A queue state holding a failed and a pending record for the same pair,
offline, with a working store. -/
def stFailPend : QueueState :=
  { queue := [opFail, opPend], storage := none, isProcessing := false,
    online := false, storeFails := false, log := [] }

/-- A queue state holding one syncing record, offline, with a working
store. -/
def stSyncing : QueueState :=
  { queue := [opSyncing], storage := none, isProcessing := false,
    online := false, storeFails := false, log := [] }

/-- A queue state holding one pending record, offline, with a store whose
writes throw. -/
def stBadStore : QueueState :=
  { queue := [opPend], storage := none, isProcessing := false,
    online := false, storeFails := true, log := [] }

/-- A queue state holding two pending records for different entities,
online, idle, with a working store. -/
def stTwoPending : QueueState :=
  { queue := [opPend, opOther], storage := none, isProcessing := false,
    online := true, storeFails := false, log := [] }

/-- A workspace operation record, as add would construct it. -/
def opWorkspace : SyncOperation :=
  { id := "ws1", type := SyncOperationType.create, entity := SyncEntity.workspace,
    entityId := "e9", workspaceId := "e9", payload := Json.str "ws",
    timestamp := 0, retryCount := 0, status := SyncStatus.pending, error := none }

theorem asNat_natCast (n : Nat) : asNat (some (Json.num (n : Int))) = some n := by
  simp [asNat, Int.toNat_natCast]

theorem decodeOp_encodeOp (op : SyncOperation) : decodeOp (encodeOp op) = some op := by
  obtain ⟨id, ty, en, entityId, workspaceId, payload, timestamp, retryCount, status, err⟩ := op
  cases ty <;> cases en <;> cases status <;> cases err <;>
    simp [encodeOp, decodeOp, lookupField, asStr, asNat_natCast, typeStr, entityStr,
      statusStr, parseType, parseEntity, parseStatus, Bind.bind, Option.bind]

theorem decodeOps_encodeOps (queue : List SyncOperation) :
    decodeOps (encodeOps queue) = some queue := by
  suffices h : decodeOpList (queue.map encodeOp) = some queue by
    simpa [decodeOps, encodeOps] using h
  induction queue with
  | nil => rfl
  | cons op rest ih => simp [decodeOpList, decodeOp_encodeOp, ih]

theorem OutboundRequest.ext_iff (a b : OutboundRequest) :
    a = b ↔ a.url = b.url ∧ a.method = b.method ∧ a.body = b.body := by
  constructor
  · rintro rfl; exact ⟨rfl, rfl, rfl⟩
  · obtain ⟨u, m, bo⟩ := a
    obtain ⟨u2, m2, bo2⟩ := b
    rintro ⟨rfl, rfl, rfl⟩
    rfl


/-- The record the retry branch of processOperation writes back: pending
again, retryCount incremented, the error message captured. -/
def retryOp (op : SyncOperation) (m : String) : SyncOperation :=
  { op with
    status := SyncStatus.pending
    retryCount := op.retryCount + 1
    error := some m }

/-- The record the exhausted branch of processOperation writes: failed,
retryCount incremented, the error message captured. -/
def failOp (op : SyncOperation) (m : String) : SyncOperation :=
  { op with
    status := SyncStatus.failed
    retryCount := op.retryCount + 1
    error := some m }

/-- The state after processOperation has marked the record syncing and
persisted. -/
def syncingWrite (op : SyncOperation) (i : Nat) (st : QueueState) : QueueState :=
  SyncQueue.saveToStorage
    { st with queue := st.queue.set i ({ op with status := SyncStatus.syncing }) }

/-- The state after the retry branch has re-marked the record pending with
the incremented retryCount and persisted. -/
def retryWrite (op : SyncOperation) (m : String) (i : Nat) (st : QueueState) : QueueState :=
  let st1 := syncingWrite op i st
  SyncQueue.saveToStorage { st1 with queue := st1.queue.set i (retryOp op m) }

/-- A dispatcher whose every attempt fails with the message boom. -/
def dispAlwaysFail : Dispatcher :=
  fun _ _ => some "boom"

/-- A dispatcher whose every attempt succeeds. -/
def dispAlwaysOk : Dispatcher :=
  fun _ _ => none

/-- A dispatcher that fails the first attempt for record p1 and succeeds on
every other attempt. -/
def dispFailP1Once : Dispatcher :=
  fun i n => if i == "p1" && n == 0 then some "temporary" else none

/-- The two-pending-record state with a drain pass already marked active. -/
def stBusy : QueueState :=
  { stTwoPending with isProcessing := true }

/-! Basic lemmas about the storage write and the mutating methods. -/

theorem SyncQueue.saveToStorage_ok (st : QueueState) (h : st.storeFails = false) :
    SyncQueue.saveToStorage st = { st with storage := some (some (encodeOps st.queue)) } := by
  simp [SyncQueue.saveToStorage, SyncQueue.setItem, h]

theorem SyncQueue.saveToStorage_bad (st : QueueState) (h : st.storeFails = true) :
    SyncQueue.saveToStorage st =
      { st with log := st.log ++ ["Failed to save sync queue to storage"] } := by
  simp [SyncQueue.saveToStorage, SyncQueue.setItem, h]

theorem SyncQueue.saveToStorage_queue (st : QueueState) :
    (SyncQueue.saveToStorage st).queue = st.queue := by
  cases h : st.storeFails
  · rw [SyncQueue.saveToStorage_ok st h]
  · rw [SyncQueue.saveToStorage_bad st h]

theorem SyncQueue.saveToStorage_storeFails (st : QueueState) :
    (SyncQueue.saveToStorage st).storeFails = st.storeFails := by
  cases h : st.storeFails
  · rw [SyncQueue.saveToStorage_ok st h]; exact h
  · rw [SyncQueue.saveToStorage_bad st h]; exact h

theorem SyncQueue.add_eq_ok (inp : SyncQueue.SyncOpInput) (id : String) (now : Nat)
    (st : QueueState) :
    SyncQueue.add inp id now st = Except.ok (id, SyncQueue.addRun inp id now st) := rfl

theorem SyncQueue.addRun_queue (inp : SyncQueue.SyncOpInput) (id : String) (now : Nat)
    (st : QueueState) :
    (SyncQueue.addRun inp id now st).queue =
      st.queue.filter (fun op => !(SyncQueue.samePendingPair inp.entity inp.entityId op)) ++
        [SyncQueue.mkOperation inp id now] := by
  simp [SyncQueue.addRun, SyncQueue.add, SyncQueue.saveToStorage_queue]

/-! Claim C9 (spec-modelled Reconciliation Policy). -/

/-- C9: whenever a locally-applied optimistic version and a server-returned
version of the same entity are both available, the version whose
modification timestamp is numerically greater replaces the other in the
presented state, and when the two timestamps are equal the server version
wins. -/
theorem c9_lww_reconciliation (localVersion serverVersion : VersionedEntity) :
    (serverVersion.updatedAt < localVersion.updatedAt →
      reconcile localVersion serverVersion = localVersion) ∧
    (localVersion.updatedAt < serverVersion.updatedAt →
      reconcile localVersion serverVersion = serverVersion) ∧
    (localVersion.updatedAt = serverVersion.updatedAt →
      reconcile localVersion serverVersion = serverVersion) := by
  refine ⟨fun h => by simp [reconcile, h], fun h => ?_, fun h => ?_⟩
  · have hn : ¬ serverVersion.updatedAt < localVersion.updatedAt := by omega
    simp [reconcile, hn]
  · have hn : ¬ serverVersion.updatedAt < localVersion.updatedAt := by omega
    simp [reconcile, hn]

/-- Witness for c9_lww_reconciliation: a newer local version wins, a newer
server version wins, a tie goes to the server. -/
theorem c9_lww_reconciliation_witness :
    reconcile ⟨Json.str "a", 5⟩ ⟨Json.str "b", 3⟩ = ⟨Json.str "a", 5⟩ ∧
    reconcile ⟨Json.str "a", 3⟩ ⟨Json.str "b", 5⟩ = ⟨Json.str "b", 5⟩ ∧
    reconcile ⟨Json.str "a", 4⟩ ⟨Json.str "b", 4⟩ = ⟨Json.str "b", 4⟩ :=
  ⟨(c9_lww_reconciliation ⟨Json.str "a", 5⟩ ⟨Json.str "b", 3⟩).1 (by decide),
   (c9_lww_reconciliation ⟨Json.str "a", 3⟩ ⟨Json.str "b", 5⟩).2.1 (by decide),
   (c9_lww_reconciliation ⟨Json.str "a", 4⟩ ⟨Json.str "b", 4⟩).2.2 (by decide)⟩

/-! Claim C10 (constructor behavior on missing or corrupt storage). -/

/-- C10: when the value under the storage key is missing, or present but
unparseable (deserialization throws, caught by the constructor), the queue
initializes with the empty in-memory list and getAll subsequently returns
the empty list. -/
theorem c10_corrupt_storage_init (cell : Option (Option Json)) (online storeFails : Bool)
    (h : cell = none ∨ cell = some none) :
    (SyncQueue.init cell online storeFails).queue = [] ∧
    SyncQueue.getAll (SyncQueue.init cell online storeFails) = [] := by
  rcases h with h | h <;> subst h <;> exact ⟨rfl, rfl⟩

/-- Witness for c10_corrupt_storage_init at an unparseable stored value. -/
theorem c10_corrupt_storage_init_witness :
    (SyncQueue.init (some none) true false).queue = [] ∧
    SyncQueue.getAll (SyncQueue.init (some none) true false) = [] :=
  c10_corrupt_storage_init (some none) true false (Or.inr rfl)

/-! Claim C4 (storage write failure handling). -/

/-- C4 counterexample: on a state whose Durable Store write throws, every
mutating Queue Core method still returns normally (Except.ok): the storage
exception does not propagate synchronously to the caller, refuting the
claim at this input. -/
theorem c4_storage_error_counterexample :
    stBadStore.storeFails = true ∧
    (SyncQueue.add inpDel "n1" 1 stBadStore).isOk = true ∧
    (SyncQueue.remove "p1" stBadStore).isOk = true ∧
    (SyncQueue.clear stBadStore).isOk = true ∧
    (SyncQueue.clearFailed stBadStore).isOk = true :=
  ⟨rfl, rfl, rfl, rfl, rfl⟩

/-- C4 amended: when the Durable Store write throws, the exception is caught
inside saveToStorage and logged; each mutating Queue Core method returns
normally with the in-memory mutation applied and the stored value
unchanged. -/
theorem c4_storage_error_swallowed (st : QueueState) (h : st.storeFails = true)
    (inp : SyncQueue.SyncOpInput) (id rid : String) (now : Nat) :
    SyncQueue.add inp id now st = Except.ok (id,
      { st with
        queue := st.queue.filter
            (fun op => !(SyncQueue.samePendingPair inp.entity inp.entityId op)) ++
          [SyncQueue.mkOperation inp id now]
        log := st.log ++ ["Failed to save sync queue to storage"] }) ∧
    SyncQueue.remove rid st = Except.ok
      { st with
        queue := st.queue.filter (fun op => !(op.id == rid))
        log := st.log ++ ["Failed to save sync queue to storage"] } ∧
    SyncQueue.clear st = Except.ok
      { st with
        queue := []
        log := st.log ++ ["Failed to save sync queue to storage"] } ∧
    SyncQueue.clearFailed st = Except.ok
      { st with
        queue := st.queue.filter (fun op => !(decide (op.status = SyncStatus.failed)))
        log := st.log ++ ["Failed to save sync queue to storage"] } := by
  refine ⟨?_, ?_, ?_, ?_⟩ <;>
    simp [SyncQueue.add, SyncQueue.remove, SyncQueue.clear, SyncQueue.clearFailed,
      SyncQueue.saveToStorage, SyncQueue.setItem, h]

/-- Witness for c4_storage_error_swallowed at a concrete failing-store
state. -/
theorem c4_storage_error_swallowed_witness :
    SyncQueue.add inpDel "n1" 1 stBadStore = Except.ok ("n1",
      { stBadStore with
        queue := stBadStore.queue.filter
            (fun op => !(SyncQueue.samePendingPair inpDel.entity inpDel.entityId op)) ++
          [SyncQueue.mkOperation inpDel "n1" 1]
        log := stBadStore.log ++ ["Failed to save sync queue to storage"] }) ∧
    SyncQueue.remove "p1" stBadStore = Except.ok
      { stBadStore with
        queue := stBadStore.queue.filter (fun op => !(op.id == "p1"))
        log := stBadStore.log ++ ["Failed to save sync queue to storage"] } ∧
    SyncQueue.clear stBadStore = Except.ok
      { stBadStore with
        queue := []
        log := stBadStore.log ++ ["Failed to save sync queue to storage"] } ∧
    SyncQueue.clearFailed stBadStore = Except.ok
      { stBadStore with
        queue := stBadStore.queue.filter (fun op => !(decide (op.status = SyncStatus.failed)))
        log := stBadStore.log ++ ["Failed to save sync queue to storage"] } :=
  c4_storage_error_swallowed stBadStore rfl inpDel "n1" "p1" 1


/-! Claim C2 (coalescing on add). -/

/-- C2 counterexample: stFailPend holds exactly one pending record for the
pair (task, e1) — and also a failed record for the same pair.  After add for
that pair, two records for the pair remain in the queue, not one, refuting
the claim at this input. -/
theorem c2_coalescing_counterexample :
    pendingPairCount stFailPend.queue SyncEntity.task "e1" = 1 ∧
    pairCount (SyncQueue.addRun inpDel "n1" 1 stFailPend).queue SyncEntity.task "e1" = 2 :=
  ⟨rfl, rfl⟩

/-- C2 amended: in a queue state containing exactly one pending record for
the pair (entity, entityId), add with a new operation for the same pair — of
any kind, including a delete following a pending create or update — leaves
exactly one record with status pending for that pair: the newly constructed
record, carrying the new kind and payload, with retryCount 0 and status
pending.  Records for the pair in other statuses (failed or syncing) are not
touched. -/
theorem c2_coalescing (inp : SyncQueue.SyncOpInput) (id : String) (now : Nat)
    (st : QueueState)
    (hone : pendingPairCount st.queue inp.entity inp.entityId = 1) :
    (SyncQueue.addRun inp id now st).queue.filter
        (SyncQueue.samePendingPair inp.entity inp.entityId) =
      [SyncQueue.mkOperation inp id now] ∧
    (SyncQueue.mkOperation inp id now).type = inp.type ∧
    (SyncQueue.mkOperation inp id now).payload = inp.payload ∧
    (SyncQueue.mkOperation inp id now).retryCount = 0 ∧
    (SyncQueue.mkOperation inp id now).status = SyncStatus.pending ∧
    (SyncQueue.addRun inp id now st).queue.filter
        (fun op => !(SyncQueue.samePendingPair inp.entity inp.entityId op)) =
      st.queue.filter (fun op => !(SyncQueue.samePendingPair inp.entity inp.entityId op)) := by
  refine ⟨?_, rfl, rfl, rfl, rfl, ?_⟩
  · rw [SyncQueue.addRun_queue, List.filter_append]
    have h1 : List.filter (SyncQueue.samePendingPair inp.entity inp.entityId)
        (List.filter (fun op => !(SyncQueue.samePendingPair inp.entity inp.entityId op))
          st.queue) = [] := by
      rw [List.filter_filter]
      simp
    have h2 : SyncQueue.samePendingPair inp.entity inp.entityId
        (SyncQueue.mkOperation inp id now) = true := by
      simp [SyncQueue.samePendingPair, SyncQueue.mkOperation]
    rw [h1]
    simp [h2]
  · rw [SyncQueue.addRun_queue, List.filter_append]
    have h2 : (!(SyncQueue.samePendingPair inp.entity inp.entityId
        (SyncQueue.mkOperation inp id now))) = false := by
      simp [SyncQueue.samePendingPair, SyncQueue.mkOperation]
    rw [List.filter_filter]
    simp [h2]

/-- Witness for c2_coalescing: stFailPend has exactly one pending record for
(task, e1); adding a delete for the pair leaves the new record as the only
pending one. -/
theorem c2_coalescing_witness :
    (SyncQueue.addRun inpDel "n1" 1 stFailPend).queue.filter
        (SyncQueue.samePendingPair inpDel.entity inpDel.entityId) =
      [SyncQueue.mkOperation inpDel "n1" 1] ∧
    (SyncQueue.mkOperation inpDel "n1" 1).type = inpDel.type ∧
    (SyncQueue.mkOperation inpDel "n1" 1).payload = inpDel.payload ∧
    (SyncQueue.mkOperation inpDel "n1" 1).retryCount = 0 ∧
    (SyncQueue.mkOperation inpDel "n1" 1).status = SyncStatus.pending ∧
    (SyncQueue.addRun inpDel "n1" 1 stFailPend).queue.filter
        (fun op => !(SyncQueue.samePendingPair inpDel.entity inpDel.entityId op)) =
      stFailPend.queue.filter
        (fun op => !(SyncQueue.samePendingPair inpDel.entity inpDel.entityId op)) :=
  c2_coalescing inpDel "n1" 1 stFailPend rfl

/-! Claim C6 (dispatcher routing). -/

/-- C6 amended: for every operation record whose entity is task or comment
and whose kind is create, update or delete, the dispatcher routing produces
exactly one outbound call whose remote address and verb agree with the call
the REST client module of the repository makes for that (entity, kind), with the
serialized payload attached exactly when the verb carries a body; the
Unknown-operation-type branches are unreachable for these inputs.  For
entity = workspace the Unknown-entity-type branch is reached instead (see
the counterexample). -/
theorem c6_dispatch_routing (op : SyncOperation) (h : op.entity ≠ SyncEntity.workspace) :
    SyncQueue.executeRoute op =
      Except.ok (apiClientRequest op.entity op.type op.workspaceId op.entityId op.payload) ∧
    (((apiClientRequest op.entity op.type op.workspaceId op.entityId op.payload).method = "POST" ∨
      (apiClientRequest op.entity op.type op.workspaceId op.entityId op.payload).method = "PATCH") ↔
      (apiClientRequest op.entity op.type op.workspaceId op.entityId op.payload).body =
        some op.payload) := by
  obtain ⟨id, ty, en, eid, wid, pl, ts, rc, stt, err⟩ := op
  cases en
  case workspace => exact absurd rfl h
  all_goals cases ty <;> exact ⟨rfl, by simp [apiClientRequest]⟩

/-- Witness for c6_dispatch_routing at a concrete task update record. -/
theorem c6_dispatch_routing_witness :
    SyncQueue.executeRoute opPend =
      Except.ok (apiClientRequest opPend.entity opPend.type opPend.workspaceId
        opPend.entityId opPend.payload) ∧
    (((apiClientRequest opPend.entity opPend.type opPend.workspaceId opPend.entityId
        opPend.payload).method = "POST" ∨
      (apiClientRequest opPend.entity opPend.type opPend.workspaceId opPend.entityId
        opPend.payload).method = "PATCH") ↔
      (apiClientRequest opPend.entity opPend.type opPend.workspaceId opPend.entityId
        opPend.payload).body = some opPend.payload) :=
  c6_dispatch_routing opPend (by decide)

/-- C6 counterexample: a workspace operation record makes the dispatcher
reach the Unknown-entity-type error branch instead of producing an outbound
call, even though the REST client module of the repository does have an address
and verb for workspace creation. -/
theorem c6_dispatch_routing_counterexample :
    SyncQueue.executeRoute opWorkspace = Except.error "Unknown entity type: workspace" ∧
    apiClientRequest SyncEntity.workspace SyncOperationType.create "e9" "e9" (Json.str "ws")
      = { url := "/api/workspaces", method := "POST", body := some (Json.str "ws") } :=
  ⟨rfl, rfl⟩


/-! Claim C5 (durability round-trip). -/

theorem storedQueue_saveToStorage (st : QueueState) (h : st.storeFails = false) :
    storedQueue (SyncQueue.saveToStorage st) = some (SyncQueue.saveToStorage st).queue := by
  rw [SyncQueue.saveToStorage_ok st h]
  simp [storedQueue, decodeOps_encodeOps]

theorem applyCall_storeFails (c : QueueCall) (st : QueueState) :
    (applyCall c st).storeFails = st.storeFails := by
  cases c <;>
    simp [applyCall, SyncQueue.addRun, SyncQueue.add, SyncQueue.removeRun, SyncQueue.remove,
      SyncQueue.clearRun, SyncQueue.clear, SyncQueue.clearFailedRun, SyncQueue.clearFailed,
      SyncQueue.saveToStorage_storeFails]

theorem applyCall_synced (c : QueueCall) (st : QueueState) (h : st.storeFails = false) :
    storedQueue (applyCall c st) = some (applyCall c st).queue := by
  cases c
  · exact storedQueue_saveToStorage _ h
  · exact storedQueue_saveToStorage _ h
  · exact storedQueue_saveToStorage _ h
  · exact storedQueue_saveToStorage _ h

/-- C5: after any finite sequence of add / remove / clear / clearFailed
calls in which every storage write succeeds — from any state when the
sequence is nonempty, and from any state whose stored value already mirrors
the queue otherwise — deserializing the value stored under the fixed
storage key yields a record list identical element-for-element to the
in-memory queue. -/
theorem c5_durability_roundtrip (calls : List QueueCall) (st : QueueState)
    (hok : st.storeFails = false)
    (hstart : calls ≠ [] ∨ storedQueue st = some st.queue) :
    storedQueue (runCalls calls st) = some (runCalls calls st).queue := by
  induction calls generalizing st with
  | nil =>
      rcases hstart with h | h
      · exact absurd rfl h
      · exact h
  | cons c cs ih =>
      have h1 : (applyCall c st).storeFails = false := by
        rw [applyCall_storeFails]; exact hok
      exact ih (applyCall c st) h1 (Or.inr (applyCall_synced c st hok))

/-- Witness for c5_durability_roundtrip: an add followed by a remove and a
clearFailed, from a state whose storage cell starts out empty. -/
theorem c5_durability_roundtrip_witness :
    storedQueue (runCalls
        [QueueCall.addCall inpDel "n1" 1, QueueCall.removeCall "p1", QueueCall.clearFailedCall]
        stFailPend) =
      some (runCalls
        [QueueCall.addCall inpDel "n1" 1, QueueCall.removeCall "p1", QueueCall.clearFailedCall]
        stFailPend).queue :=
  c5_durability_roundtrip
    [QueueCall.addCall inpDel "n1" 1, QueueCall.removeCall "p1", QueueCall.clearFailedCall]
    stFailPend rfl (Or.inl (List.cons_ne_nil _ _))


/-! List lemmas used by the drain proofs. -/

theorem countP_set_balance {α : Type _} (p : α → Bool) (d : α) (l : List α) :
    ∀ (i : Nat) (v : α), i < l.length →
      (l.set i v).countP p + (if p (l.getD i d) then 1 else 0) =
        l.countP p + (if p v then 1 else 0) := by
  induction l with
  | nil => intro i v h; simp at h
  | cons a t ih =>
      intro i v h
      cases i with
      | zero => simp [List.countP_cons]; omega
      | succ i =>
          have hi : i < t.length := by simpa using h
          have key := ih i v hi
          simp only [List.getD_eq_getElem?_getD] at key
          simp [List.countP_cons, List.getD_cons_succ, List.getD_eq_getElem?_getD]
          omega

theorem getD_set_self {α : Type _} (l : List α) (i : Nat) (v d : α) (h : i < l.length) :
    (l.set i v).getD i d = v := by
  rw [List.getD_eq_getElem?_getD, List.getElem?_set_self h]
  rfl

theorem set_getElem_self_eq {α : Type _} (l : List α) :
    ∀ (i : Nat) (h : i < l.length), l.set i (l.get ⟨i, h⟩) = l := by
  induction l with
  | nil => intro i h; simp at h
  | cons a t ih =>
      intro i h
      cases i with
      | zero => rfl
      | succ i =>
          have hi : i < t.length := by simpa using h
          have key := ih i hi
          simp only [List.get_eq_getElem] at key
          simp [key]

theorem filter_set_of_false {α : Type _} (p : α → Bool) (d : α) (l : List α) :
    ∀ (i : Nat) (v : α), i < l.length → p v = false → p (l.getD i d) = false →
      (l.set i v).filter p = l.filter p := by
  induction l with
  | nil => intro i v h; simp at h
  | cons a t ih =>
      intro i v h hv hold
      cases i with
      | zero =>
          simp only [List.getD_cons_zero] at hold
          simp [List.filter_cons, hv, hold]
      | succ i =>
          have hi : i < t.length := by simpa using h
          simp only [List.getD_cons_succ] at hold
          simp [List.filter_cons, ih i v hi hv hold]

theorem mem_set_cases {α : Type _} {l : List α} {i : Nat} {v a : α} (hlt : i < l.length)
    (h : a ∈ l.set i v) :
    a = v ∨ ∃ j, ∃ hj : j < l.length, j ≠ i ∧ l.get ⟨j, hj⟩ = a := by
  rcases List.mem_iff_getElem.mp h with ⟨j, hj, hget⟩
  have hjl : j < l.length := by simpa using hj
  by_cases hji : j = i
  · subst hji
    left
    rw [List.getElem_set_self hj] at hget
    exact hget.symm
  · right
    refine ⟨j, hjl, hji, ?_⟩
    have := List.getElem_set_ne (Ne.symm hji) hj
    rw [this] at hget
    exact hget

theorem findIdx?_spec {α : Type _} (p : α → Bool) (d : α) {l : List α} {i : Nat}
    (h : l.findIdx? p = some i) : i < l.length ∧ p (l.getD i d) = true := by
  obtain ⟨hlt, hfd⟩ := List.findIdx?_eq_some_iff_findIdx_eq.mp h
  refine ⟨hlt, ?_⟩
  have hw : l.findIdx p < l.length := by rw [hfd]; exact hlt
  have hp := @List.findIdx_getElem _ p l hw
  rw [List.getD_eq_getElem?_getD, List.getElem?_eq_getElem hlt]
  simp only [Option.getD_some]
  have : l[l.findIdx p] = l[i] := by congr 1
  rw [← this]
  exact hp

theorem findIdx_set_of_found {α : Type _} (p : α → Bool) (l : List α) :
    ∀ (i : Nat) (v : α), i < l.length → l.findIdx p = i → p v = true →
      (l.set i v).findIdx p = i := by
  induction l with
  | nil => intro i v h; simp at h
  | cons a t ih =>
      intro i v hlt hfd hv
      cases i with
      | zero => simp [List.findIdx_cons, hv]
      | succ i =>
          have hi : i < t.length := by simpa using hlt
          rw [List.findIdx_cons] at hfd
          cases hpa : p a with
          | true => rw [hpa] at hfd; simp at hfd
          | false =>
              rw [hpa] at hfd
              simp only [cond_false] at hfd
              have hft : t.findIdx p = i := by omega
              simp [List.findIdx_cons, hpa, ih i v hi hft hv]

theorem findIdx?_set_found {α : Type _} (p : α → Bool) {l : List α} {i : Nat} {v : α}
    (h : l.findIdx? p = some i) (hv : p v = true) :
    (l.set i v).findIdx? p = some i := by
  obtain ⟨hlt, hfd⟩ := List.findIdx?_eq_some_iff_findIdx_eq.mp h
  apply List.findIdx?_eq_some_iff_findIdx_eq.mpr
  exact ⟨by simpa using hlt, findIdx_set_of_found p l i v hlt hfd hv⟩

theorem nodup_id_getElem_eq (l : List SyncOperation)
    (hnd : (l.map SyncOperation.id).Nodup) {i j : Nat}
    (hi : i < l.length) (hj : j < l.length)
    (h : (l.get ⟨i, hi⟩).id = (l.get ⟨j, hj⟩).id) : i = j := by
  have hi' : i < (l.map SyncOperation.id).length := by simpa using hi
  have hj' : j < (l.map SyncOperation.id).length := by simpa using hj
  have := @List.Nodup.getElem_inj_iff _ _ hnd i hi' j hj'
  apply this.mp
  simpa [List.getElem_map] using h


/-! Step lemmas for processOperation. -/

theorem retryWrite_queue (op : SyncOperation) (m : String) (i : Nat) (st : QueueState) :
    (retryWrite op m i st).queue = st.queue.set i (retryOp op m) := by
  simp [retryWrite, syncingWrite, SyncQueue.saveToStorage_queue, List.set_set]

theorem retryWrite_length (op : SyncOperation) (m : String) (i : Nat) (st : QueueState) :
    (retryWrite op m i st).queue.length = st.queue.length := by
  rw [retryWrite_queue]
  exact List.length_set st.queue i (retryOp op m)

theorem processOperation_zero (disp : Dispatcher) (op : SyncOperation) (st : QueueState) :
    SyncQueue.processOperation disp 0 op st = (st, []) := rfl

theorem processOperation_not_found (disp : Dispatcher) (fuel : Nat) (op : SyncOperation)
    (st : QueueState) (h : st.queue.findIdx? (fun o => o.id == op.id) = none) :
    SyncQueue.processOperation disp (fuel + 1) op st = (st, []) := by
  simp [SyncQueue.processOperation, h]

theorem processOperation_ok_run (disp : Dispatcher) (fuel : Nat) (op : SyncOperation)
    (st : QueueState) (i : Nat)
    (hfind : st.queue.findIdx? (fun o => o.id == op.id) = some i)
    (hdisp : disp op.id op.retryCount = none) :
    (SyncQueue.processOperation disp (fuel + 1) op st).1.queue =
        st.queue.filter (fun o => !(o.id == op.id)) ∧
    (SyncQueue.processOperation disp (fuel + 1) op st).2 =
        [SyncEvent.attempt op.id op.retryCount] := by
  have hspec := findIdx?_spec (fun o => o.id == op.id) dfltOp hfind
  constructor
  · simp only [SyncQueue.processOperation, hfind, hdisp, SyncQueue.saveToStorage_queue]
    apply filter_set_of_false _ dfltOp _ _ _ hspec.1
    · simp
    · simp only [Bool.not_eq_false']
      exact hspec.2
  · simp [SyncQueue.processOperation, hfind, hdisp]

theorem processOperation_retry_run (disp : Dispatcher) (fuel : Nat) (op : SyncOperation)
    (st : QueueState) (i : Nat) (m : String)
    (hfind : st.queue.findIdx? (fun o => o.id == op.id) = some i)
    (hdisp : disp op.id op.retryCount = some m)
    (hlt : op.retryCount + 1 < syncRetryDelaysMs.length) :
    SyncQueue.processOperation disp (fuel + 1) op st =
      ((SyncQueue.processOperation disp fuel (retryOp op m) (retryWrite op m i st)).1,
       SyncEvent.attempt op.id op.retryCount ::
         SyncEvent.waited (syncRetryDelaysMs.getD (op.retryCount + 1) 0) ::
         (SyncQueue.processOperation disp fuel (retryOp op m) (retryWrite op m i st)).2) := by
  have hlen : i < st.queue.length := (findIdx?_spec (fun o => o.id == op.id) dfltOp hfind).1
  have hnext : (retryWrite op m i st).queue.getD i dfltOp = retryOp op m := by
    rw [retryWrite_queue]
    exact getD_set_self st.queue i (retryOp op m) dfltOp hlen
  have mid : SyncQueue.processOperation disp (fuel + 1) op st =
      ((SyncQueue.processOperation disp fuel
          ((retryWrite op m i st).queue.getD i dfltOp) (retryWrite op m i st)).1,
       SyncEvent.attempt op.id op.retryCount ::
         SyncEvent.waited (syncRetryDelaysMs.getD (op.retryCount + 1) 0) ::
         (SyncQueue.processOperation disp fuel
           ((retryWrite op m i st).queue.getD i dfltOp) (retryWrite op m i st)).2) := by
    simp only [SyncQueue.processOperation, hfind, hdisp, hlt, if_pos]
    rfl
  rw [mid, hnext]

theorem processOperation_exhaust_run (disp : Dispatcher) (fuel : Nat) (op : SyncOperation)
    (st : QueueState) (i : Nat) (m : String)
    (hfind : st.queue.findIdx? (fun o => o.id == op.id) = some i)
    (hdisp : disp op.id op.retryCount = some m)
    (hge : ¬ op.retryCount + 1 < syncRetryDelaysMs.length) :
    (SyncQueue.processOperation disp (fuel + 1) op st).1.queue = st.queue.set i (failOp op m) ∧
    (SyncQueue.processOperation disp (fuel + 1) op st).2 =
      [SyncEvent.attempt op.id op.retryCount] := by
  constructor
  · simp only [SyncQueue.processOperation, hfind, hdisp, hge, if_neg, if_false,
      SyncQueue.saveToStorage_queue, List.set_set]
    rfl
  · simp [SyncQueue.processOperation, hfind, hdisp, hge]


/-! Trace lemmas: every event the processing of a record emits carries the
id of that record. -/

theorem processOperation_events_id (disp : Dispatcher) :
    ∀ (fuel : Nat) (op : SyncOperation) (st : QueueState) (x : String), x ≠ op.id →
      ∀ e ∈ (SyncQueue.processOperation disp fuel op st).2, isAttemptOf x e = false := by
  intro fuel
  induction fuel with
  | zero =>
      intro op st x hx e he
      rw [processOperation_zero] at he
      simp at he
  | succ fuel ih =>
      intro op st x hx e he
      cases hfind : st.queue.findIdx? (fun o => o.id == op.id) with
      | none =>
          rw [processOperation_not_found disp fuel op st hfind] at he
          simp at he
      | some i =>
          cases hdisp : disp op.id op.retryCount with
          | none =>
              rw [(processOperation_ok_run disp fuel op st i hfind hdisp).2] at he
              simp at he
              subst he
              exact beq_eq_false_iff_ne.mpr (Ne.symm hx)
          | some m =>
              by_cases hlt : op.retryCount + 1 < syncRetryDelaysMs.length
              · rw [processOperation_retry_run disp fuel op st i m hfind hdisp hlt] at he
                simp only [List.mem_cons] at he
                rcases he with he | he | he
                · subst he
                  exact beq_eq_false_iff_ne.mpr (Ne.symm hx)
                · subst he
                  rfl
                · exact ih (retryOp op m) (retryWrite op m i st) x hx e he
              · rw [(processOperation_exhaust_run disp fuel op st i m hfind hdisp hlt).2] at he
                simp at he
                subst he
                exact beq_eq_false_iff_ne.mpr (Ne.symm hx)

theorem processOps_events_id (disp : Dispatcher) (x : String) :
    ∀ (ops : List SyncOperation) (st : QueueState), (∀ o ∈ ops, o.id ≠ x) →
      ∀ e ∈ (SyncQueue.processOps disp ops st).2, isAttemptOf x e = false := by
  intro ops
  induction ops with
  | nil =>
      intro st h e he
      simp [SyncQueue.processOps] at he
  | cons op rest ih =>
      intro st h e he
      simp only [SyncQueue.processOps, List.mem_append] at he
      rcases he with he | he
      · exact processOperation_events_id disp _ op st x
          (Ne.symm (h op (List.mem_cons_self op rest))) e he
      · exact ih _ (fun o ho => h o (List.mem_cons_of_mem op ho)) e he

/-! The always-failing retry chain. -/

theorem processOperation_fail_run (disp : Dispatcher) (m : String)
    (hfail : ∀ s n, disp s n = some m) :
    ∀ (k : Nat) (op : SyncOperation) (st : QueueState) (i : Nat) (fuel : Nat),
      st.queue.findIdx? (fun o => o.id == op.id) = some i →
      op.retryCount + (k + 1) = syncRetryDelaysMs.length →
      k + 1 ≤ fuel →
      (SyncQueue.processOperation disp fuel op st).1.queue =
        st.queue.set i
          { op with
            retryCount := syncRetryDelaysMs.length
            status := SyncStatus.failed
            error := some m } ∧
      (SyncQueue.processOperation disp fuel op st).2 =
        failTrace op.id op.retryCount (k + 1) := by
  intro k
  induction k with
  | zero =>
      intro op st i fuel hfind hrc hfuel
      obtain ⟨f, rfl⟩ : ∃ f, fuel = f + 1 := ⟨fuel - 1, by omega⟩
      have hge : ¬ op.retryCount + 1 < syncRetryDelaysMs.length := by omega
      obtain ⟨hq, ht⟩ := processOperation_exhaust_run disp f op st i m hfind (hfail _ _) hge
      have hrc1 : op.retryCount + 1 = syncRetryDelaysMs.length := by omega
      constructor
      · rw [hq]
        have : failOp op m =
            { op with
              retryCount := syncRetryDelaysMs.length
              status := SyncStatus.failed
              error := some m } := by
          simp [failOp, hrc1]
        rw [this]
      · rw [ht]
        simp [failTrace]
  | succ k ih =>
      intro op st i fuel hfind hrc hfuel
      obtain ⟨f, rfl⟩ : ∃ f, fuel = f + 1 := ⟨fuel - 1, by omega⟩
      have hlt : op.retryCount + 1 < syncRetryDelaysMs.length := by omega
      rw [processOperation_retry_run disp f op st i m hfind (hfail _ _) hlt]
      have hfind2 : (retryWrite op m i st).queue.findIdx?
          (fun o => o.id == (retryOp op m).id) = some i := by
        rw [retryWrite_queue]
        exact findIdx?_set_found _ hfind (by simp [retryOp])
      have hrc2 : (retryOp op m).retryCount + (k + 1) = syncRetryDelaysMs.length := by
        simp only [retryOp]
        omega
      have hfuel2 : k + 1 ≤ f := by omega
      obtain ⟨hq, ht⟩ := ih (retryOp op m) (retryWrite op m i st) i f hfind2 hrc2 hfuel2
      constructor
      · show (SyncQueue.processOperation disp f (retryOp op m) (retryWrite op m i st)).1.queue = _
        rw [hq, retryWrite_queue, List.set_set]
        rfl
      · show SyncEvent.attempt op.id op.retryCount ::
            SyncEvent.waited (syncRetryDelaysMs.getD (op.retryCount + 1) 0) ::
            (SyncQueue.processOperation disp f (retryOp op m) (retryWrite op m i st)).2 = _
        rw [ht]
        simp [failTrace, retryOp]


theorem processQueue_events_id (disp : Dispatcher) (x : String) (st : QueueState)
    (h : ∀ o ∈ SyncQueue.getPending st, o.id ≠ x) :
    ∀ e ∈ (SyncQueue.processQueue disp st).2, isAttemptOf x e = false := by
  intro e he
  by_cases hguard : (st.isProcessing || !st.online) = true
  · rw [SyncQueue.processQueue, if_pos hguard] at he
    simp at he
  · rw [SyncQueue.processQueue, if_neg hguard] at he
    exact processOps_events_id disp x
      (SyncQueue.getPending { st with isProcessing := true })
      { st with isProcessing := true } (fun o ho => h o ho) e he

/-! Claim C1 (bounded retry with terminal failed state). -/

/-- C1: for a record at retryCount 0 whose dispatcher call fails on every
attempt, the drain makes dispatch attempts carrying retryCount 0, 1, 2, 3 in
order — incrementing by exactly 1, with as many attempts as
SYNC_RETRY_DELAYS_MS has entries — then stores the record with status failed
and retryCount equal to that length, after which its retryCount no longer
changes: getPending excludes it and a later drain pass makes no dispatch
attempt for it. -/
theorem c1_retry_ceiling (disp : Dispatcher) (m : String) (op : SyncOperation)
    (st : QueueState) (i : Nat)
    (hfail : ∀ s n, disp s n = some m)
    (hfind : st.queue.findIdx? (fun o => o.id == op.id) = some i)
    (hmem : st.queue.getD i dfltOp = op)
    (hrc : op.retryCount = 0)
    (hnd : (st.queue.map SyncOperation.id).Nodup) :
    (SyncQueue.processOperation disp SyncQueue.drainFuel op st).2.filterMap attemptRetry =
        List.range syncRetryDelaysMs.length ∧
    (SyncQueue.processOperation disp SyncQueue.drainFuel op st).1.queue =
        st.queue.set i
          { op with
            retryCount := syncRetryDelaysMs.length
            status := SyncStatus.failed
            error := some m } ∧
    (∀ o ∈ SyncQueue.getPending (SyncQueue.processOperation disp SyncQueue.drainFuel op st).1,
        o.id ≠ op.id) ∧
    (∀ e ∈ (SyncQueue.processQueue disp
        { (SyncQueue.processOperation disp SyncQueue.drainFuel op st).1 with
          isProcessing := false
          online := true }).2,
      isAttemptOf op.id e = false) := by
  have hlen : i < st.queue.length := (findIdx?_spec (fun o => o.id == op.id) dfltOp hfind).1
  have hk : op.retryCount + (3 + 1) = syncRetryDelaysMs.length := by
    rw [hrc]
    rfl
  have hfuel : 3 + 1 ≤ SyncQueue.drainFuel := by decide
  obtain ⟨hq, ht⟩ :=
    processOperation_fail_run disp m hfail 3 op st i SyncQueue.drainFuel hfind hk hfuel
  have hgeti : st.queue.get ⟨i, hlen⟩ = op := by
    rw [← hmem, List.getD_eq_getElem?_getD, List.getElem?_eq_getElem hlen]
    rfl
  have hpending : ∀ o ∈ SyncQueue.getPending
      (SyncQueue.processOperation disp SyncQueue.drainFuel op st).1, o.id ≠ op.id := by
    intro o ho heq
    rw [SyncQueue.getPending, List.mem_filter] at ho
    obtain ⟨homem, hostat⟩ := ho
    rw [hq] at homem
    rcases mem_set_cases hlen homem with hov | ⟨j, hj, hji, hgetj⟩
    · rw [hov] at hostat
      simp at hostat
    · exact hji (nodup_id_getElem_eq st.queue hnd hj hlen (by rw [hgetj, hgeti, heq]))
  refine ⟨?_, hq, hpending, ?_⟩
  · rw [ht, hrc]
    rfl
  · intro e he
    exact processQueue_events_id disp op.id
      { (SyncQueue.processOperation disp SyncQueue.drainFuel op st).1 with
        isProcessing := false
        online := true } (fun o ho => hpending o ho) e he

/-- Witness for c1_retry_ceiling: a two-record queue whose head record fails
every dispatch attempt. -/
theorem c1_retry_ceiling_witness :
    (SyncQueue.processOperation dispAlwaysFail SyncQueue.drainFuel opPend
        stTwoPending).2.filterMap attemptRetry = List.range syncRetryDelaysMs.length ∧
    (SyncQueue.processOperation dispAlwaysFail SyncQueue.drainFuel opPend
        stTwoPending).1.queue =
      stTwoPending.queue.set 0
        { opPend with
          retryCount := syncRetryDelaysMs.length
          status := SyncStatus.failed
          error := some "boom" } :=
  ⟨(c1_retry_ceiling dispAlwaysFail "boom" opPend stTwoPending 0 (fun _ _ => rfl) rfl rfl rfl
      (by decide)).1,
   (c1_retry_ceiling dispAlwaysFail "boom" opPend stTwoPending 0 (fun _ _ => rfl) rfl rfl rfl
      (by decide)).2.1⟩


/-! Claim C3 (per-pair uniqueness invariant). -/

theorem removeRun_queue (id : String) (st : QueueState) :
    (SyncQueue.removeRun id st).queue = st.queue.filter (fun op => !(op.id == id)) := by
  simp [SyncQueue.removeRun, SyncQueue.remove, SyncQueue.saveToStorage_queue]

theorem clearRun_queue (st : QueueState) : (SyncQueue.clearRun st).queue = [] := by
  simp [SyncQueue.clearRun, SyncQueue.clear, SyncQueue.saveToStorage_queue]

theorem clearFailedRun_queue (st : QueueState) :
    (SyncQueue.clearFailedRun st).queue =
      st.queue.filter (fun op => !(decide (op.status = SyncStatus.failed))) := by
  simp [SyncQueue.clearFailedRun, SyncQueue.clearFailed, SyncQueue.saveToStorage_queue]

theorem amop_of_filter (st : List SyncOperation) (p : SyncOperation → Bool)
    (hinv : AtMostOnePending st) : AtMostOnePending (st.filter p) := by
  intro e eid
  exact le_trans (List.Sublist.countP_le _ (List.filter_sublist st)) (hinv e eid)

theorem addRun_preserves_amop (inp : SyncQueue.SyncOpInput) (id : String) (now : Nat)
    (st : QueueState) (hinv : AtMostOnePending st.queue) :
    AtMostOnePending (SyncQueue.addRun inp id now st).queue := by
  intro e eid
  rw [SyncQueue.addRun_queue]
  unfold pendingPairCount
  rw [List.countP_append]
  by_cases he : inp.entity = e ∧ inp.entityId = eid
  · obtain ⟨rfl, rfl⟩ := he
    have h0 : List.countP (SyncQueue.samePendingPair inp.entity inp.entityId)
        (st.queue.filter (fun op => !(SyncQueue.samePendingPair inp.entity inp.entityId op)))
        = 0 := by
      rw [List.countP_filter]
      simp
    rw [h0]
    simp [List.countP_cons, SyncQueue.samePendingPair, SyncQueue.mkOperation]
  · have hnew : SyncQueue.samePendingPair e eid (SyncQueue.mkOperation inp id now) = false := by
      simp only [SyncQueue.samePendingPair, SyncQueue.mkOperation, Bool.and_eq_false_iff,
        decide_eq_false_iff_not]
      by_cases h1 : inp.entity = e
      · by_cases h2 : inp.entityId = eid
        · exact absurd ⟨h1, h2⟩ he
        · exact Or.inl (Or.inr h2)
      · exact Or.inl (Or.inl h1)
    have hle : List.countP (SyncQueue.samePendingPair e eid)
        (st.queue.filter (fun op => !(SyncQueue.samePendingPair inp.entity inp.entityId op)))
        ≤ List.countP (SyncQueue.samePendingPair e eid) st.queue :=
      List.Sublist.countP_le _ (List.filter_sublist st.queue)
    have hone := hinv e eid
    unfold pendingPairCount at hone
    simp [List.countP_cons, hnew]
    omega

theorem findIdx_id_spec (l : List SyncOperation) (op : SyncOperation)
    (hmem : op ∈ l) (hnd : (l.map SyncOperation.id).Nodup) :
    ∃ i, l.findIdx? (fun o => o.id == op.id) = some i ∧ i < l.length ∧
      l.getD i dfltOp = op := by
  have hex : ∃ x ∈ l, (fun o => o.id == op.id) x = true := ⟨op, hmem, by simp⟩
  have hfind := List.findIdx?_eq_some_of_exists hex
  have hi : l.findIdx (fun o => o.id == op.id) < l.length :=
    List.findIdx_lt_length_of_exists hex
  refine ⟨l.findIdx (fun o => o.id == op.id), hfind, hi, ?_⟩
  obtain ⟨j, hj, hgetj⟩ := List.mem_iff_getElem.mp hmem
  have hpi := @List.findIdx_getElem _ (fun o => o.id == op.id) l hi
  have hid : (l.get ⟨l.findIdx (fun o => o.id == op.id), hi⟩).id = (l.get ⟨j, hj⟩).id := by
    have h1 : l[l.findIdx (fun o => o.id == op.id)].id = op.id := eq_of_beq hpi
    have h2 : l[j].id = op.id := by rw [hgetj]
    simp only [List.get_eq_getElem]
    rw [h1, h2]
  have heq := nodup_id_getElem_eq l hnd hi hj hid
  rw [List.getD_eq_getElem?_getD, List.getElem?_eq_getElem hi]
  simp only [Option.getD_some]
  rw [show l[l.findIdx fun o => o.id == op.id] = l[j] from by congr 1]
  exact hgetj

theorem processOperation_preserves_amop (disp : Dispatcher) :
    ∀ (fuel : Nat) (op : SyncOperation) (st : QueueState),
      op ∈ st.queue → op.status = SyncStatus.pending →
      (st.queue.map SyncOperation.id).Nodup →
      AtMostOnePending st.queue →
      AtMostOnePending (SyncQueue.processOperation disp fuel op st).1.queue := by
  intro fuel
  induction fuel with
  | zero =>
      intro op st _ _ _ hinv
      rw [processOperation_zero]
      exact hinv
  | succ fuel ih =>
      intro op st hmem hpend hnd hinv
      obtain ⟨i, hfind, hlen, hget⟩ := findIdx_id_spec st.queue op hmem hnd
      cases hdisp : disp op.id op.retryCount with
      | none =>
          intro e eid
          rw [(processOperation_ok_run disp fuel op st i hfind hdisp).1]
          exact amop_of_filter st.queue _ hinv e eid
      | some m =>
          by_cases hlt : op.retryCount + 1 < syncRetryDelaysMs.length
          · rw [processOperation_retry_run disp fuel op st i m hfind hdisp hlt]
            show AtMostOnePending
              (SyncQueue.processOperation disp fuel (retryOp op m) (retryWrite op m i st)).1.queue
            have hgeti : st.queue.get ⟨i, hlen⟩ = op := by
              rw [← hget, List.getD_eq_getElem?_getD, List.getElem?_eq_getElem hlen]
              rfl
            apply ih (retryOp op m) (retryWrite op m i st)
            · rw [retryWrite_queue]
              exact List.mem_set st.queue i hlen (retryOp op m)
            · rfl
            · rw [retryWrite_queue, List.map_set]
              have hmapi : i < (st.queue.map SyncOperation.id).length := by simpa using hlen
              have hval : (retryOp op m).id =
                  (st.queue.map SyncOperation.id).get ⟨i, hmapi⟩ := by
                simp only [List.get_eq_getElem, List.getElem_map]
                show op.id = st.queue[i].id
                rw [show st.queue[i] = st.queue.get ⟨i, hlen⟩ from rfl, hgeti]
              rw [hval, set_getElem_self_eq]
              exact hnd
            · intro e eid
              have hbal := countP_set_balance (SyncQueue.samePendingPair e eid) dfltOp
                st.queue i (retryOp op m) hlen
              rw [retryWrite_queue]
              have hsame : SyncQueue.samePendingPair e eid (retryOp op m) =
                  SyncQueue.samePendingPair e eid op := by
                simp [SyncQueue.samePendingPair, retryOp, hpend]
              rw [hget, hsame] at hbal
              have hone := hinv e eid
              unfold pendingPairCount at hone ⊢
              omega
          · intro e eid
            rw [(processOperation_exhaust_run disp fuel op st i m hfind hdisp hlt).1]
            have hbal := countP_set_balance (SyncQueue.samePendingPair e eid) dfltOp
              st.queue i (failOp op m) hlen
            have hfailp : SyncQueue.samePendingPair e eid (failOp op m) = false := by
              simp [SyncQueue.samePendingPair, failOp]
            rw [hget, hfailp] at hbal
            have hone := hinv e eid
            unfold pendingPairCount at hone ⊢
            simp only [Bool.false_eq_true, if_false] at hbal
            omega

/-- C3 counterexample: stSyncing holds one record for (task, e1), with
status syncing, so at most one pending-or-syncing record per pair holds; add
for the same pair leaves two pending-or-syncing records for the pair — add
does not preserve the claimed invariant when a record of the pair is
syncing. -/
theorem c3_invariant_counterexample :
    psPairCount stSyncing.queue SyncEntity.task "e1" = 1 ∧
    psPairCount (SyncQueue.addRun inpDel "n1" 1 stSyncing).queue SyncEntity.task "e1" = 2 :=
  ⟨rfl, rfl⟩

/-- C3 amended: the per-pair uniqueness invariant that the queue operations
actually preserve counts only pending records: when at most one pending
record exists per (entity, entityId) pair, this is preserved by add (which
coalesces the pending records of the pair), remove, clear, clearFailed, and by
the status transitions of processOperation (for a pending record present in
a queue with distinct ids).  Records with status syncing are not covered:
add while a record of the same pair is syncing yields a pending record next
to the syncing one (see the counterexample). -/
theorem c3_per_pair_uniqueness (st : QueueState) (hinv : AtMostOnePending st.queue) :
    (∀ inp id now, AtMostOnePending (SyncQueue.addRun inp id now st).queue) ∧
    (∀ id, AtMostOnePending (SyncQueue.removeRun id st).queue) ∧
    AtMostOnePending (SyncQueue.clearRun st).queue ∧
    AtMostOnePending (SyncQueue.clearFailedRun st).queue ∧
    (∀ disp fuel op, op ∈ st.queue → op.status = SyncStatus.pending →
      (st.queue.map SyncOperation.id).Nodup →
      AtMostOnePending (SyncQueue.processOperation disp fuel op st).1.queue) := by
  refine ⟨?_, ?_, ?_, ?_, ?_⟩
  · intro inp id now
    exact addRun_preserves_amop inp id now st hinv
  · intro id
    rw [AtMostOnePending]
    intro e eid
    rw [removeRun_queue]
    exact amop_of_filter st.queue _ hinv e eid
  · intro e eid
    rw [clearRun_queue]
    simp [pendingPairCount]
  · intro e eid
    rw [clearFailedRun_queue]
    exact amop_of_filter st.queue _ hinv e eid
  · intro disp fuel op hmem hpend hnd
    exact processOperation_preserves_amop disp fuel op st hmem hpend hnd hinv

/-- Witness for c3_per_pair_uniqueness at a concrete two-record state. -/
theorem c3_per_pair_uniqueness_witness :
    AtMostOnePending (SyncQueue.addRun inpDel "n1" 1 stFailPend).queue ∧
    AtMostOnePending (SyncQueue.clearFailedRun stFailPend).queue := by
  have hinv : AtMostOnePending stFailPend.queue := by
    intro e eid
    unfold pendingPairCount
    simp [stFailPend, List.countP_cons, SyncQueue.samePendingPair, opFail, opPend]
    split <;> omega
  exact ⟨(c3_per_pair_uniqueness stFailPend hinv).1 inpDel "n1" 1,
    (c3_per_pair_uniqueness stFailPend hinv).2.2.2.1⟩


/-! Claim C7 (re-entrancy guard). -/

theorem processOps_ok (disp : Dispatcher) (hok : ∀ s n, disp s n = none) :
    ∀ (ops : List SyncOperation) (st : QueueState),
      (∀ o ∈ ops, o ∈ st.queue) →
      (st.queue.map SyncOperation.id).Nodup →
      (ops.map SyncOperation.id).Nodup →
      (SyncQueue.processOps disp ops st).2 =
        ops.map (fun o => SyncEvent.attempt o.id o.retryCount) ∧
      (SyncQueue.processOps disp ops st).1.queue =
        st.queue.filter (fun o => !((ops.map SyncOperation.id).contains o.id)) := by
  intro ops
  induction ops with
  | nil =>
      intro st _ _ _
      constructor
      · rfl
      · simp [SyncQueue.processOps]
  | cons op rest ih =>
      intro st h hnd hnds
      obtain ⟨i, hfind, hlen, hget⟩ :=
        findIdx_id_spec st.queue op (h op (List.mem_cons_self op rest)) hnd
      have hq1 : (SyncQueue.processOperation disp SyncQueue.drainFuel op st).1.queue =
          st.queue.filter (fun o => !(o.id == op.id)) :=
        (processOperation_ok_run disp 3 op st i hfind (hok _ _)).1
      have ht1 : (SyncQueue.processOperation disp SyncQueue.drainFuel op st).2 =
          [SyncEvent.attempt op.id op.retryCount] :=
        (processOperation_ok_run disp 3 op st i hfind (hok _ _)).2
      rw [List.map_cons, List.nodup_cons] at hnds
      obtain ⟨hidnot, hndr⟩ := hnds
      have hmem' : ∀ o ∈ rest,
          o ∈ (SyncQueue.processOperation disp SyncQueue.drainFuel op st).1.queue := by
        intro o ho
        rw [hq1, List.mem_filter]
        refine ⟨h o (List.mem_cons_of_mem op ho), ?_⟩
        simp only [Bool.not_eq_eq_eq_not, Bool.not_true, beq_eq_false_iff_ne]
        intro he
        exact hidnot (he ▸ List.mem_map_of_mem SyncOperation.id ho)
      have hnd' : ((SyncQueue.processOperation disp SyncQueue.drainFuel op st).1.queue.map
          SyncOperation.id).Nodup := by
        rw [hq1]
        exact List.Nodup.sublist (List.Sublist.map _ (List.filter_sublist _)) hnd
      obtain ⟨ihT, ihQ⟩ :=
        ih (SyncQueue.processOperation disp SyncQueue.drainFuel op st).1 hmem' hnd' hndr
      constructor
      · show (SyncQueue.processOperation disp SyncQueue.drainFuel op st).2 ++
            (SyncQueue.processOps disp rest
              (SyncQueue.processOperation disp SyncQueue.drainFuel op st).1).2 = _
        rw [ht1, ihT]
        rfl
      · show (SyncQueue.processOps disp rest
            (SyncQueue.processOperation disp SyncQueue.drainFuel op st).1).1.queue = _
        rw [ihQ, hq1, List.filter_filter]
        apply List.filter_congr
        intro x _
        have hxb : (x.id == op.id) = decide (x.id = op.id) := by
          by_cases hxy : x.id = op.id <;> simp [hxy]
        simp [List.contains_cons, Bool.and_comm, hxb]

/-- C7: a call to the drain entrypoint while a drain pass is already active
returns without processing anything and leaves the state unchanged; an
actual drain on an idle online state whose dispatcher succeeds makes exactly
one dispatch attempt per pending record.  Hence when two drain calls
overlap, the later one contributes no attempts and each pending record is
dispatched exactly once, never twice. -/
theorem c7_reentrancy_guard (disp : Dispatcher) (st : QueueState) :
    (st.isProcessing = true → SyncQueue.processQueue disp st = (st, [])) ∧
    (st.isProcessing = false → st.online = true → (∀ s n, disp s n = none) →
      (st.queue.map SyncOperation.id).Nodup →
      ∀ op ∈ SyncQueue.getPending st,
        (SyncQueue.processQueue disp st).2.countP (isAttemptOf op.id) = 1) := by
  constructor
  · intro h
    rw [SyncQueue.processQueue, if_pos (by rw [h]; rfl)]
  · intro hflag hon hok hnd op hop
    rw [SyncQueue.processQueue, if_neg (by rw [hflag, hon]; decide)]
    show (SyncQueue.processOps disp
        (SyncQueue.getPending { st with isProcessing := true })
        { st with isProcessing := true }).2.countP (isAttemptOf op.id) = 1
    have hmem : ∀ o ∈ SyncQueue.getPending { st with isProcessing := true },
        o ∈ ({ st with isProcessing := true } : QueueState).queue := by
      intro o ho
      exact (List.mem_filter.mp ho).1
    have hnds : ((SyncQueue.getPending { st with isProcessing := true }).map
        SyncOperation.id).Nodup :=
      List.Nodup.sublist (List.Sublist.map _ (List.filter_sublist _)) hnd
    obtain ⟨hT, _⟩ := processOps_ok disp hok
      (SyncQueue.getPending { st with isProcessing := true })
      { st with isProcessing := true } hmem hnd hnds
    rw [hT, List.countP_map]
    rw [show (isAttemptOf op.id ∘ fun (o : SyncOperation) => SyncEvent.attempt o.id o.retryCount) =
        fun (o : SyncOperation) => o.id == op.id from by funext o; rfl]
    have hcnt : List.countP (fun o => o.id == op.id)
        (SyncQueue.getPending { st with isProcessing := true }) =
        List.countP (fun x => x == op.id)
          ((SyncQueue.getPending { st with isProcessing := true }).map SyncOperation.id) := by
      rw [List.countP_map]
      rfl
    rw [hcnt, ← List.count_eq_countP]
    exact List.count_eq_one_of_mem hnds (List.mem_map_of_mem SyncOperation.id hop)

/-- Witness for c7_reentrancy_guard: the guarded call on a busy state is a
no-op, and a drain of the two-record state attempts the first record exactly
once. -/
theorem c7_reentrancy_guard_witness :
    SyncQueue.processQueue dispAlwaysOk stBusy = (stBusy, []) ∧
    (SyncQueue.processQueue dispAlwaysOk stTwoPending).2.countP
      (isAttemptOf opPend.id) = 1 :=
  ⟨(c7_reentrancy_guard dispAlwaysOk stBusy).1 rfl,
   (c7_reentrancy_guard dispAlwaysOk stTwoPending).2 rfl rfl (fun _ _ => rfl) (by decide)
     opPend (List.mem_cons_self opPend [opOther])⟩


/-! Claim C8 (serial per-record ordering within one drain pass). -/

theorem processOps_append (disp : Dispatcher) (xs ys : List SyncOperation) :
    ∀ st : QueueState,
      SyncQueue.processOps disp (xs ++ ys) st =
        ((SyncQueue.processOps disp ys (SyncQueue.processOps disp xs st).1).1,
         (SyncQueue.processOps disp xs st).2 ++
           (SyncQueue.processOps disp ys (SyncQueue.processOps disp xs st).1).2) := by
  induction xs with
  | nil => intro st; rfl
  | cons op rest ih =>
      intro st
      show SyncQueue.processOps disp (op :: (rest ++ ys)) st = _
      have hstep := ih (SyncQueue.processOperation disp SyncQueue.drainFuel op st).1
      simp only [SyncQueue.processOps, hstep, List.append_assoc]

theorem lt_of_separated_append {α : Type _} (t1 t2 : List α) (pA pB : α → Bool)
    (hA : ∀ e ∈ t2, pA e = false) (hB : ∀ e ∈ t1, pB e = false) :
    ∀ (i j : Nat) (hi : i < (t1 ++ t2).length) (hj : j < (t1 ++ t2).length),
      pA ((t1 ++ t2).get ⟨i, hi⟩) = true → pB ((t1 ++ t2).get ⟨j, hj⟩) = true → i < j := by
  intro i j hi hj hpa hpb
  have hiL : i < t1.length := by
    by_contra hge
    push_neg at hge
    have hmem : (t1 ++ t2).get ⟨i, hi⟩ ∈ t2 := by
      rw [List.get_eq_getElem, List.getElem_append_right hge]
      exact List.getElem_mem _
    rw [hA _ hmem] at hpa
    simp at hpa
  have hjR : t1.length ≤ j := by
    by_contra hlt
    push_neg at hlt
    have hmem : (t1 ++ t2).get ⟨j, hj⟩ ∈ t1 := by
      rw [List.get_eq_getElem, List.getElem_append_left hlt]
      exact List.getElem_mem _
    rw [hB _ hmem] at hpb
    simp at hpb
  omega

/-- C8: within one drain pass, for pending records A before B in the pending
snapshot, every dispatch attempt for A — its first attempt and all recursive
retries after their backoff waits — occurs in the drain trace strictly
before every dispatch attempt for B, whatever the outcome of each attempt:
the dispatches of the two records are never interleaved. -/
theorem c8_serial_ordering (disp : Dispatcher) (st : QueueState)
    (A B : SyncOperation) (l1 l2 l3 : List SyncOperation)
    (hsplit : SyncQueue.getPending st = l1 ++ A :: (l2 ++ B :: l3))
    (hflag : st.isProcessing = false) (hon : st.online = true)
    (hnd : (st.queue.map SyncOperation.id).Nodup) :
    ∀ (i j : Nat) (hi : i < (SyncQueue.processQueue disp st).2.length)
      (hj : j < (SyncQueue.processQueue disp st).2.length),
      isAttemptOf A.id ((SyncQueue.processQueue disp st).2.get ⟨i, hi⟩) = true →
      isAttemptOf B.id ((SyncQueue.processQueue disp st).2.get ⟨j, hj⟩) = true →
      i < j := by
  have hPnd : ((SyncQueue.getPending st).map SyncOperation.id).Nodup :=
    List.Nodup.sublist (List.Sublist.map _ (List.filter_sublist _)) hnd
  rw [hsplit, List.map_append, List.nodup_append, List.map_cons, List.nodup_cons] at hPnd
  obtain ⟨_, ⟨hAnot, _⟩, hdisj⟩ := hPnd
  have hBmem : B.id ∈ (l2 ++ B :: l3).map SyncOperation.id :=
    List.mem_map_of_mem SyncOperation.id (by simp)
  have hArest : ∀ o ∈ l2 ++ B :: l3, o.id ≠ A.id := by
    intro o ho he
    exact hAnot (he ▸ List.mem_map_of_mem SyncOperation.id ho)
  have hAB : B.id ≠ A.id := fun he => hAnot (he ▸ hBmem)
  have hBl1 : ∀ o ∈ l1, o.id ≠ B.id := by
    intro o ho he
    exact hdisj (List.mem_map_of_mem SyncOperation.id ho)
      (by rw [he]; exact List.mem_cons_of_mem A.id hBmem)
  have hsplit' : SyncQueue.getPending { st with isProcessing := true } =
      l1 ++ A :: (l2 ++ B :: l3) := hsplit
  have htr : (SyncQueue.processQueue disp st).2 =
      ((SyncQueue.processOps disp l1 { st with isProcessing := true }).2 ++
        (SyncQueue.processOperation disp SyncQueue.drainFuel A
          (SyncQueue.processOps disp l1 { st with isProcessing := true }).1).2) ++
      (SyncQueue.processOps disp (l2 ++ B :: l3)
        (SyncQueue.processOperation disp SyncQueue.drainFuel A
          (SyncQueue.processOps disp l1 { st with isProcessing := true }).1).1).2 := by
    rw [SyncQueue.processQueue, if_neg (by rw [hflag, hon]; decide)]
    show (SyncQueue.processOps disp
        (SyncQueue.getPending { st with isProcessing := true })
        { st with isProcessing := true }).2 = _
    rw [hsplit', processOps_append]
    show (SyncQueue.processOps disp l1 { st with isProcessing := true }).2 ++
        (SyncQueue.processOps disp (A :: (l2 ++ B :: l3))
          (SyncQueue.processOps disp l1 { st with isProcessing := true }).1).2 = _
    show (SyncQueue.processOps disp l1 { st with isProcessing := true }).2 ++
        ((SyncQueue.processOperation disp SyncQueue.drainFuel A
            (SyncQueue.processOps disp l1 { st with isProcessing := true }).1).2 ++
          (SyncQueue.processOps disp (l2 ++ B :: l3)
            (SyncQueue.processOperation disp SyncQueue.drainFuel A
              (SyncQueue.processOps disp l1 { st with isProcessing := true }).1).1).2) = _
    rw [List.append_assoc]
  rw [htr]
  apply lt_of_separated_append
  · intro e he
    exact processOps_events_id disp A.id (l2 ++ B :: l3) _ hArest e he
  · intro e he
    rw [List.mem_append] at he
    rcases he with he | he
    · exact processOps_events_id disp B.id l1 _ hBl1 e he
    · exact processOperation_events_id disp SyncQueue.drainFuel A _ B.id hAB e he

/-- Witness for c8_serial_ordering: two pending records; the first fails
once then succeeds on retry; its retry attempt (index 2) precedes the second
record (index 3). -/
theorem c8_serial_ordering_witness :
    isAttemptOf opPend.id
        ((SyncQueue.processQueue dispFailP1Once stTwoPending).2.get ⟨2, by decide⟩) = true ∧
    isAttemptOf opOther.id
        ((SyncQueue.processQueue dispFailP1Once stTwoPending).2.get ⟨3, by decide⟩) = true ∧
    2 < 3 :=
  ⟨by decide, by decide,
   c8_serial_ordering dispFailP1Once stTwoPending opPend opOther [] [] [] rfl rfl rfl
     (by decide) 2 3 (by decide) (by decide) (by decide) (by decide)⟩

end TaskChute
